import Mathlib

/-!
Verification development for the EzGraver engraver-control core
(src/EzGraverCore/ezgraver.h). The repository ships a declaration-only
header: the numeric constants (EraseTimeMs, ImageWidth, ImageHeight), the
operation signatures and their documentation come from the header, while
the behaviour of each operation is modelled from the specification
(spec.md), as the member-function bodies are not part of the sources.
-/

namespace EzGraver

/-- From src/EzGraverCore/ezgraver.h line 19: the time required to erase
the EEPROM in milliseconds, a compile-time constant. -/
def EraseTimeMs : Nat := 6000

/-- From src/EzGraverCore/ezgraver.h line 22: the image width. -/
def ImageWidth : Nat := 512

/-- From src/EzGraverCore/ezgraver.h line 25: the image height. -/
def ImageHeight : Nat := 512

/-- Modelled from the spec: the header documentation on erase() says
waiting for about 5 seconds seems to be sufficient; this constant records
that documented sufficient wait in milliseconds. -/
def documentedSufficientEraseMs : Nat := 5000

/-- Length in bytes of a serialized DeviceImage: 512*512 pixels packed
8 pixels per byte. -/
def imageBufferLength : Nat := ImageWidth * ImageHeight / 8

/-- Modelled from the spec: the command data model, a tagged value from
the set listed in spec section 3; the member-function bodies that build
the byte sequences are missing from the sources. `Start` carries the
caller-supplied burn-time byte. -/
inductive Command where
  | Start (burnTime : Nat)
  | Pause
  | Reset
  | Home
  | Center
  | Preview
  | JogUp
  | JogDown
  | JogLeft
  | JogRight
  | Erase
deriving DecidableEq

/-- Placeholder opcode byte for the Start command. The spec leaves the
literal byte values as a configuration table; only the shape of the
mapping is fixed. -/
def startOpcode : Nat := 0xF1

/-- Placeholder opcode byte for the Pause command. -/
def pauseOpcode : Nat := 0xF2

/-- Placeholder opcode byte for the Reset command. -/
def resetOpcode : Nat := 0xF9

/-- Placeholder opcode byte for the Home command. -/
def homeOpcode : Nat := 0xF3

/-- Placeholder opcode byte for the Center command. -/
def centerOpcode : Nat := 0xFB

/-- Placeholder opcode byte for the Preview command. -/
def previewOpcode : Nat := 0xF4

/-- Placeholder opcode byte for the jog-up command. -/
def jogUpOpcode : Nat := 0xF5

/-- Placeholder opcode byte for the jog-down command. -/
def jogDownOpcode : Nat := 0xF6

/-- Placeholder opcode byte for the jog-left command. -/
def jogLeftOpcode : Nat := 0xF7

/-- Placeholder opcode byte for the jog-right command. -/
def jogRightOpcode : Nat := 0xF8

/-- Placeholder opcode byte for the Erase command. -/
def eraseOpcode : Nat := 0xFA

/-- Index of the burn-time payload byte within the encoding of Start. -/
def burnTimeIndex : Nat := 0

/-- Modelled from the spec: CommandEncoder.encode, the body of
EzGraver::start, EzGraver::pause, ..., EzGraver::_setBurnTime being
missing from the sources. Each command maps to a fixed-length byte
sequence; Start embeds the caller-supplied burn-time byte (an unsigned
char, hence reduced mod 256) as its payload, followed by the start
opcode, mirroring _setBurnTime preceding the start byte. -/
def encode : Command → List Nat
  | .Start burnTime => [burnTime % 256, startOpcode]
  | .Pause => [pauseOpcode]
  | .Reset => [resetOpcode]
  | .Home => [homeOpcode]
  | .Center => [centerOpcode]
  | .Preview => [previewOpcode]
  | .JogUp => [jogUpOpcode]
  | .JogDown => [jogDownOpcode]
  | .JogLeft => [jogLeftOpcode]
  | .JogRight => [jogRightOpcode]
  | .Erase => [eraseOpcode]

/-- Modelled from the spec: a decoded source image, an arbitrary-size
grid of RGB pixels. `pixel y x` yields the (r, g, b) triple at row y,
column x. -/
structure Image where
  width : Nat
  height : Nat
  pixel : Nat → Nat → Nat × Nat × Nat

/-- Luminance of an RGB triple, the integer grayscale formula used by Qt
(qGray): (r*11 + g*16 + b*5) / 32. -/
def qGray (rgb : Nat × Nat × Nat) : Nat :=
  (rgb.1 * 11 + rgb.2.1 * 16 + rgb.2.2 * 5) / 32

/-- Modelled from the spec: converter step 1, scale the source to the
fixed 512x512 target (aspect ratio not preserved) by coordinate
resampling. -/
def scaledPixel (img : Image) (y x : Nat) : Nat × Nat × Nat :=
  img.pixel (y * img.height / ImageHeight) (x * img.width / ImageWidth)

/-- Modelled from the spec: converter step 2, convert the scaled pixel to
grayscale luminance. -/
def grayscaleAt (img : Image) (y x : Nat) : Nat :=
  qGray (scaledPixel img y x)

/-- Modelled from the spec: converter step 3, invert the luminance within
the 0..255 range. -/
def invertedAt (img : Image) (y x : Nat) : Nat :=
  255 - grayscaleAt img y x

/-- Modelled from the spec: converter step 4, mirror a 512-column raster
along the horizontal axis to compensate for the device scan direction. -/
def mirrorStep (f : Nat → Nat → Nat) : Nat → Nat → Nat :=
  fun y x => f y (ImageWidth - 1 - x)

/-- The mirrored inverted luminance raster of a source image. -/
def mirroredAt (img : Image) : Nat → Nat → Nat :=
  mirrorStep (invertedAt img)

/-- Modelled from the spec: converter step 5, threshold each pixel at the
midpoint of the luminance range into a single bit. After inversion, a
value below the midpoint stems from a light source pixel, which is the
engraved (set-bit) case per the device white-pixel-is-engraved
convention. -/
def bitAt (img : Image) (y x : Nat) : Nat :=
  if mirroredAt img y x < 128 then 1 else 0

/-- One packed output byte: 8 consecutive row-major pixels,
most-significant bit first. -/
def byteAt (img : Image) (i : Nat) : Nat :=
  (List.range 8).foldl
    (fun acc j => acc * 2 + bitAt img ((i * 8 + j) / ImageWidth) ((i * 8 + j) % ImageWidth))
    0

/-- Modelled from the spec: RasterConverter.convert, the image-conversion
path of EzGraver::uploadImage(QImage), whose body is missing from the
sources. Produces the packed monochrome buffer: scale, grayscale, invert,
mirror, threshold, packed 8 pixels per byte row-major MSB-first. -/
def convert (img : Image) : List Nat :=
  (List.range imageBufferLength).map (byteAt img)

/-- Number of chunks the chunked transmit path issues for a buffer of
the given length: the ceiling of length / chunkSize. -/
def numChunks (chunkSize len : Nat) : Nat :=
  (len + chunkSize - 1) / chunkSize

/-- Modelled from the spec: the chunk split performed by
EzGraver::_transmit(QByteArray, int), whose body is missing from the
sources. The buffer is split into consecutive slices of at most
chunkSize bytes: chunk i is the slice starting at offset i*chunkSize. -/
def transmitChunks (data : List Nat) (chunkSize : Nat) : List (List Nat) :=
  (List.range (numChunks chunkSize data.length)).map
    (fun i => (data.drop (i * chunkSize)).take chunkSize)

/-- Modelled from the spec: the error taxonomy of spec section 7. -/
inductive Err where
  | NotErased
  | InvalidLength
  | InvalidImage
  | TransmissionFailure
deriving DecidableEq

/-- Modelled from the spec: the observable actions an operation performs
against the transport and the clock. -/
inductive Effect where
  | write (bytes : List Nat)
  | sleep (ms : Nat)
  | awaitDrained (msecs : Int)
deriving DecidableEq

/-- Modelled from the spec: the session state, tracking whether an erase
has completed since the connection was opened; it gates uploadImage. -/
structure Session where
  erased : Bool
deriving DecidableEq

/-- The initial session state right after the connection is opened: no
erase has completed yet. -/
def connectedSession : Session := { erased := false }

/-- Modelled from the spec: EzGraver::erase, whose body is missing from
the sources. Sends the Erase command, then unconditionally imposes the
EraseTimeMs post-command delay before returning control; afterwards the
session has reached the Erased state. -/
def erase (_s : Session) : Session × List Effect :=
  ({ erased := true }, [Effect.write (encode Command.Erase), Effect.sleep EraseTimeMs])

/-- Modelled from the spec: the device receive-buffer capacity used as
the fixed chunk size for image upload; the spec fixes only that it is a
positive configuration constant. -/
def uploadChunkSize : Nat := 8192

/-- Modelled from the spec: EzGraver::uploadImage(QByteArray), the
raw-byte upload entry point, whose body is missing from the sources.
Fails with NotErased before an erase has completed, fails with
InvalidLength unless the buffer is exactly imageBufferLength bytes, and
otherwise hands the buffer to the chunked transmit path unchanged and
returns the number of bytes sent. -/
def uploadImageBytes (s : Session) (data : List Nat) : Except Err Nat × List Effect :=
  if s.erased = false then
    (Except.error Err.NotErased, [])
  else if data.length = imageBufferLength then
    (Except.ok data.length, (transmitChunks data uploadChunkSize).map Effect.write)
  else
    (Except.error Err.InvalidLength, [])

/-- Modelled from the spec: EzGraver::uploadImage(QImage), whose body is
missing from the sources. Converts the decoded image through
RasterConverter and delegates to the raw-byte path. -/
def uploadImage (s : Session) (img : Image) : Except Err Nat × List Effect :=
  uploadImageBytes s (convert img)

/-- Total milliseconds an effect list spends sleeping. -/
def totalSleepMs (effs : List Effect) : Nat :=
  effs.foldl (fun acc e => match e with | Effect.sleep ms => acc + ms | _ => acc) 0

/-- All bytes an effect list hands to the transport, in order. -/
def writtenBytes (effs : List Effect) : List Nat :=
  effs.foldr (fun e acc => match e with | Effect.write bs => bs ++ acc | _ => acc) []

/-- From src/EzGraverCore/ezgraver.h line 112: the default argument of
awaitTransmission is -1 milliseconds. -/
def awaitTransmissionDefaultMsecs : Int := -1

/-- How long a wait blocks. -/
inductive WaitMode where
  | indefinite
  | bounded (msecs : Nat)
deriving DecidableEq

/-- Modelled from the spec: the wait mode awaitTransmission selects from
its millisecond argument; a negative timeout means wait indefinitely. -/
def awaitMode (msecs : Int) : WaitMode :=
  if msecs < 0 then WaitMode.indefinite else WaitMode.bounded msecs.toNat

/-- Modelled from the spec: how many milliseconds the wait blocks when
the transport takes drainMs milliseconds to drain its outgoing queue:
until drained or until the timeout elapses, whichever comes first. -/
def waitDuration (drainMs : Nat) (msecs : Int) : Nat :=
  match awaitMode msecs with
  | WaitMode.indefinite => drainMs
  | WaitMode.bounded t => min drainMs t

/-- Modelled from the spec: EzGraver::awaitTransmission, whose body is
missing from the sources. Delegates the completion wait to the
transport. -/
def awaitTransmission (s : Session) (msecs : Int) : Session × List Effect :=
  (s, [Effect.awaitDrained msecs])

/-- A fully black 512x512 source image, used as a concrete test input. -/
def blackImage : Image :=
  { width := 512, height := 512, pixel := fun _ _ => (0, 0, 0) }

/-- A fully white 512x512 source image, used as a concrete test input. -/
def whiteImage : Image :=
  { width := 512, height := 512, pixel := fun _ _ => (255, 255, 255) }

/-- An empty buffer yields zero chunks. -/
theorem numChunks_zero (c : Nat) (hc : 0 < c) : numChunks c 0 = 0 := by
  unfold numChunks
  exact Nat.div_eq_of_lt (by omega)

/-- A nonempty buffer yields one chunk more than the buffer shortened by
one chunk size. -/
theorem numChunks_succ (c L : Nat) (hc : 0 < c) (hL : 0 < L) :
    numChunks c L = numChunks c (L - c) + 1 := by
  unfold numChunks
  rcases Nat.le_total L c with h | h
  · have h0 : L - c = 0 := Nat.sub_eq_zero_of_le h
    rw [h0]
    have h1 : (0 + c - 1) / c = 0 := Nat.div_eq_of_lt (by omega)
    rw [h1]
    have h2 : L + c - 1 = (L - 1) + c := by omega
    rw [h2, Nat.add_div_right _ hc]
    have h3 : (L - 1) / c = 0 := Nat.div_eq_of_lt (by omega)
    omega
  · have e1 : L + c - 1 = (L - c + c - 1) + c := by omega
    rw [e1, Nat.add_div_right _ hc]

/-- Concatenating the chunks of the chunked transmit path reconstructs
the original buffer. -/
theorem transmitChunks_flatten (c : Nat) (hc : 0 < c) (data : List Nat) :
    (transmitChunks data c).flatten = data := by
  suffices h : ∀ n (l : List Nat), l.length = n → (transmitChunks l c).flatten = l by
    exact h data.length data rfl
  intro n
  induction n using Nat.strong_induction_on with
  | _ n ih =>
    intro l hlen
    cases l with
    | nil => simp [transmitChunks, numChunks_zero c hc]
    | cons a l' =>
      have hL : 0 < (a :: l').length := by simp
      have hstep := numChunks_succ c (a :: l').length hc hL
      unfold transmitChunks
      rw [hstep, List.range_succ_eq_map, List.map_cons, List.map_map]
      have hmap : (List.range (numChunks c ((a :: l').length - c))).map
          ((fun i => ((a :: l').drop (i * c)).take c) ∘ Nat.succ)
          = transmitChunks ((a :: l').drop c) c := by
        unfold transmitChunks
        rw [List.length_drop]
        apply List.map_congr_left
        intro i _
        simp only [Function.comp_apply]
        rw [Nat.succ_mul, List.drop_drop, Nat.add_comm (i * c) c]
      rw [hmap]
      have hrec : (transmitChunks ((a :: l').drop c) c).flatten = (a :: l').drop c := by
        apply ih ((a :: l').length - c) (by omega)
        rw [List.length_drop]
      rw [List.flatten_cons, hrec]
      simp [List.take_append_drop]

/-- The bytes written by a list of pure write effects are the
concatenation of the written buffers. -/
theorem writtenBytes_map_write (ls : List (List Nat)) :
    writtenBytes (ls.map Effect.write) = ls.flatten := by
  induction ls with
  | nil => rfl
  | cons x xs ih =>
    simp [writtenBytes] at ih ⊢
    rw [ih]

/-- C1: for every valid (decodable) source image, the image-conversion
path of uploadImage (RasterConverter.convert) produces a packed
monochrome buffer of exactly 512*512/8 = 32768 bytes, and any serialized
DeviceImage of any other length is rejected. -/
theorem convert_length_and_rejection (img : Image) (s : Session) (data : List Nat)
    (hs : s.erased = true) (hlen : data.length ≠ ImageWidth * ImageHeight / 8) :
    (convert img).length = ImageWidth * ImageHeight / 8 ∧
    ImageWidth * ImageHeight / 8 = 32768 ∧
    uploadImageBytes s data = (Except.error Err.InvalidLength, []) := by
  refine ⟨?_, by decide, ?_⟩
  · simp [convert, imageBufferLength]
  · simp [uploadImageBytes, imageBufferLength, hs, hlen]

/-- Witness for C1 at the all-black image and the empty buffer. -/
theorem convert_length_and_rejection_witness :
    (Session.mk true).erased = true ∧
    ([] : List Nat).length ≠ ImageWidth * ImageHeight / 8 ∧
    ((convert blackImage).length = ImageWidth * ImageHeight / 8 ∧
     ImageWidth * ImageHeight / 8 = 32768 ∧
     uploadImageBytes (Session.mk true) [] = (Except.error Err.InvalidLength, [])) :=
  ⟨rfl, by decide,
   convert_length_and_rejection blackImage (Session.mk true) [] rfl (by decide)⟩

/-- C2: the chunked transmit path with chunk size C on a buffer of
length L issues exactly ceil(L/C) writes, each chunk is no larger than C
bytes, the chunks are consecutive slices of the input, and their
concatenation equals the original buffer exactly. -/
theorem transmit_chunking_spec (c : Nat) (hc : 0 < c) (data : List Nat) :
    (transmitChunks data c).length = (data.length + c - 1) / c ∧
    (∀ ch ∈ transmitChunks data c, ch.length ≤ c) ∧
    (∀ i, i < (transmitChunks data c).length →
      (transmitChunks data c).getD i [] = (data.drop (i * c)).take c) ∧
    (transmitChunks data c).flatten = data := by
  refine ⟨by simp [transmitChunks, numChunks], ?_, ?_, transmitChunks_flatten c hc data⟩
  · intro ch hch
    simp [transmitChunks] at hch
    obtain ⟨i, hi, rfl⟩ := hch
    simp [List.length_take]
  · intro i hi
    simp [transmitChunks] at hi ⊢
    rw [List.getElem?_range hi]
    rfl

/-- Witness for C2 at chunk size 8 and a 17-byte buffer. -/
theorem transmit_chunking_spec_witness :
    0 < 8 ∧
    ((transmitChunks (List.range 17) 8).length = ((List.range 17).length + 8 - 1) / 8 ∧
     (∀ ch ∈ transmitChunks (List.range 17) 8, ch.length ≤ 8) ∧
     (∀ i, i < (transmitChunks (List.range 17) 8).length →
       (transmitChunks (List.range 17) 8).getD i [] = ((List.range 17).drop (i * 8)).take 8) ∧
     (transmitChunks (List.range 17) 8).flatten = List.range 17) :=
  ⟨by decide, transmit_chunking_spec 8 (by decide) (List.range 17)⟩

/-- C3: for every image argument, calling uploadImage before an erase
has completed since the connection was opened fails with NotErased and
performs no transport write. -/
theorem uploadImage_before_erase_not_erased (s : Session) (img : Image) (data : List Nat)
    (h : s.erased = false) :
    uploadImage s img = (Except.error Err.NotErased, []) ∧
    uploadImageBytes s data = (Except.error Err.NotErased, []) ∧
    writtenBytes (uploadImage s img).2 = [] := by
  refine ⟨?_, ?_, ?_⟩ <;> simp [uploadImage, uploadImageBytes, writtenBytes, h]

/-- Witness for C3 at the freshly connected session. -/
theorem uploadImage_before_erase_not_erased_witness :
    connectedSession.erased = false ∧
    (uploadImage connectedSession blackImage = (Except.error Err.NotErased, []) ∧
     uploadImageBytes connectedSession [] = (Except.error Err.NotErased, []) ∧
     writtenBytes (uploadImage connectedSession blackImage).2 = []) :=
  ⟨rfl, uploadImage_before_erase_not_erased connectedSession blackImage [] rfl⟩

/-- C4: every call to erase imposes at least the configured erase delay
(EraseTimeMs, the device EEPROM clear time) before returning control to
the caller, regardless of how fast the transport write completes. -/
theorem erase_blocks_at_least_delay (s : Session) :
    (erase s).2 = [Effect.write (encode Command.Erase), Effect.sleep EraseTimeMs] ∧
    EraseTimeMs ≤ totalSleepMs (erase s).2 := by
  refine ⟨rfl, ?_⟩
  simp [erase, totalSleepMs]

/-- C5: the raw-byte upload entry point accepts exactly the buffers of
length 512*512/8 bytes, passing them to the transport unmodified
(bypassing the conversion steps), and fails with InvalidLength for every
buffer of any other length. -/
theorem uploadImageBytes_length_gate (s : Session) (data : List Nat)
    (hs : s.erased = true) :
    (data.length = ImageWidth * ImageHeight / 8 →
      (uploadImageBytes s data).1 = Except.ok data.length ∧
      writtenBytes (uploadImageBytes s data).2 = data) ∧
    (data.length ≠ ImageWidth * ImageHeight / 8 →
      uploadImageBytes s data = (Except.error Err.InvalidLength, [])) := by
  constructor
  · intro hlen
    have hok : uploadImageBytes s data
        = (Except.ok data.length, (transmitChunks data uploadChunkSize).map Effect.write) := by
      simp [uploadImageBytes, imageBufferLength, hs, hlen]
    rw [hok]
    refine ⟨rfl, ?_⟩
    rw [writtenBytes_map_write]
    exact transmitChunks_flatten uploadChunkSize (by decide) data
  · intro hlen
    simp [uploadImageBytes, imageBufferLength, hs, hlen]

/-- Witness for C5 at an exact-length buffer and at the empty buffer. -/
theorem uploadImageBytes_length_gate_witness :
    (Session.mk true).erased = true ∧
    (List.replicate 32768 0).length = ImageWidth * ImageHeight / 8 ∧
    ((uploadImageBytes (Session.mk true) (List.replicate 32768 0)).1
        = Except.ok (List.replicate 32768 0).length ∧
     writtenBytes (uploadImageBytes (Session.mk true) (List.replicate 32768 0)).2
        = List.replicate 32768 0) ∧
    ([] : List Nat).length ≠ ImageWidth * ImageHeight / 8 ∧
    uploadImageBytes (Session.mk true) [] = (Except.error Err.InvalidLength, []) :=
  ⟨rfl, by rw [List.length_replicate]; decide,
   (uploadImageBytes_length_gate (Session.mk true) (List.replicate 32768 0) rfl).1
     (by rw [List.length_replicate]; decide),
   by decide,
   (uploadImageBytes_length_gate (Session.mk true) [] rfl).2 (by decide)⟩

/-- C6: under the inversion contract of the converter, converting a
fully black source image yields a 32768-byte buffer whose bits are all
zero (nothing engraved), and converting a fully white source image
yields a buffer whose bits are all one. -/
theorem convert_black_zero_white_one (imgB imgW : Image)
    (hB : ∀ y x, imgB.pixel y x = (0, 0, 0))
    (hW : ∀ y x, imgW.pixel y x = (255, 255, 255)) :
    (∀ b ∈ convert imgB, b = 0) ∧ (∀ b ∈ convert imgW, b = 255) ∧
    (convert imgB).length = 32768 ∧ (convert imgW).length = 32768 := by
  have h8 : List.range 8 = [0, 1, 2, 3, 4, 5, 6, 7] := rfl
  have hbB : ∀ y x, bitAt imgB y x = 0 := by
    intro y x
    simp [bitAt, mirroredAt, mirrorStep, invertedAt, grayscaleAt, scaledPixel, qGray, hB]
  have hbW : ∀ y x, bitAt imgW y x = 1 := by
    intro y x
    simp [bitAt, mirroredAt, mirrorStep, invertedAt, grayscaleAt, scaledPixel, qGray, hW]
  have hByteB : ∀ i, byteAt imgB i = 0 := by
    intro i
    unfold byteAt
    rw [h8]
    simp [List.foldl_cons, List.foldl_nil, hbB]
  have hByteW : ∀ i, byteAt imgW i = 255 := by
    intro i
    unfold byteAt
    rw [h8]
    simp [List.foldl_cons, List.foldl_nil, hbW]
  refine ⟨?_, ?_, ?_, ?_⟩
  · intro b hb
    simp [convert] at hb
    obtain ⟨i, hi, rfl⟩ := hb
    exact hByteB i
  · intro b hb
    simp [convert] at hb
    obtain ⟨i, hi, rfl⟩ := hb
    exact hByteW i
  · simp [convert, imageBufferLength]
    decide
  · simp [convert, imageBufferLength]
    decide

/-- Witness for C6 at the concrete all-black and all-white images. -/
theorem convert_black_zero_white_one_witness :
    (∀ y x, blackImage.pixel y x = (0, 0, 0)) ∧
    (∀ y x, whiteImage.pixel y x = (255, 255, 255)) ∧
    ((∀ b ∈ convert blackImage, b = 0) ∧ (∀ b ∈ convert whiteImage, b = 255) ∧
     (convert blackImage).length = 32768 ∧ (convert whiteImage).length = 32768) :=
  ⟨fun _ _ => rfl, fun _ _ => rfl,
   convert_black_zero_white_one blackImage whiteImage (fun _ _ => rfl) (fun _ _ => rfl)⟩

/-- C7: the mirror transform of the converter is an involution on
in-range columns: applying the mirror step twice returns the original
raster value. -/
theorem mirrorStep_involution (f : Nat → Nat → Nat) (y x : Nat) (hx : x < ImageWidth) :
    mirrorStep (mirrorStep f) y x = f y x := by
  have hW : ImageWidth = 512 := rfl
  simp only [mirrorStep]
  congr 1
  omega

/-- Witness for C7 at the coordinate raster and column 5. -/
theorem mirrorStep_involution_witness :
    5 < ImageWidth ∧
    mirrorStep (mirrorStep (fun _ x => x)) 0 5 = (fun (_ x : Nat) => x) 0 5 :=
  ⟨by decide, mirrorStep_involution (fun _ x => x) 0 5 (by decide)⟩

/-- C8: for any two burn-time bytes, the encodings of Start have the
same length, agree at every position other than the burn-time payload
index, carry the caller-supplied value at the payload index, and differ
there whenever the burn times differ. -/
theorem encode_start_differs_only_burn_byte (b1 b2 : Nat) (h1 : b1 < 256) (h2 : b2 < 256) :
    (encode (Command.Start b1)).length = (encode (Command.Start b2)).length ∧
    (encode (Command.Start b1)).getD burnTimeIndex 0 = b1 ∧
    (encode (Command.Start b2)).getD burnTimeIndex 0 = b2 ∧
    (∀ i, i ≠ burnTimeIndex →
      (encode (Command.Start b1)).getD i 0 = (encode (Command.Start b2)).getD i 0) ∧
    (b1 ≠ b2 →
      (encode (Command.Start b1)).getD burnTimeIndex 0
        ≠ (encode (Command.Start b2)).getD burnTimeIndex 0) := by
  have e1 : (encode (Command.Start b1)).getD burnTimeIndex 0 = b1 := by
    simp [encode, burnTimeIndex, Nat.mod_eq_of_lt h1]
  have e2 : (encode (Command.Start b2)).getD burnTimeIndex 0 = b2 := by
    simp [encode, burnTimeIndex, Nat.mod_eq_of_lt h2]
  refine ⟨rfl, e1, e2, ?_, ?_⟩
  · intro i hi
    rcases i with _ | _ | n
    · exact absurd rfl hi
    · rfl
    · rfl
  · intro hne
    rw [e1, e2]
    exact hne

/-- Witness for C8 at burn times 128 and 200. -/
theorem encode_start_differs_only_burn_byte_witness :
    128 < 256 ∧ 200 < 256 ∧
    ((encode (Command.Start 128)).length = (encode (Command.Start 200)).length ∧
     (encode (Command.Start 128)).getD burnTimeIndex 0 = 128 ∧
     (encode (Command.Start 200)).getD burnTimeIndex 0 = 200 ∧
     (∀ i, i ≠ burnTimeIndex →
       (encode (Command.Start 128)).getD i 0 = (encode (Command.Start 200)).getD i 0) ∧
     (128 ≠ 200 →
       (encode (Command.Start 128)).getD burnTimeIndex 0
         ≠ (encode (Command.Start 200)).getD burnTimeIndex 0)) :=
  ⟨by decide, by decide, encode_start_differs_only_burn_byte 128 200 (by decide) (by decide)⟩

/-- C9: awaitTransmission delegates a completion wait that blocks until
the transport reports the outgoing queue drained or the timeout elapses,
whichever comes first; every negative timeout waits indefinitely, and
the default timeout argument of -1 selects indefinite waiting. -/
theorem awaitTransmission_wait_semantics (s : Session) (msecs : Int) (drainMs : Nat) :
    (awaitTransmission s msecs).2 = [Effect.awaitDrained msecs] ∧
    (msecs < 0 → awaitMode msecs = WaitMode.indefinite ∧
      waitDuration drainMs msecs = drainMs) ∧
    (0 ≤ msecs → waitDuration drainMs msecs = min drainMs msecs.toNat ∧
      waitDuration drainMs msecs ≤ drainMs ∧ waitDuration drainMs msecs ≤ msecs.toNat) ∧
    awaitMode awaitTransmissionDefaultMsecs = WaitMode.indefinite := by
  refine ⟨rfl, ?_, ?_, by decide⟩
  · intro hneg
    constructor
    · simp [awaitMode, hneg]
    · simp [waitDuration, awaitMode, hneg]
  · intro hpos
    have hnlt : ¬ msecs < 0 := not_lt.mpr hpos
    refine ⟨?_, ?_, ?_⟩
    · simp [waitDuration, awaitMode, hnlt]
    · simp [waitDuration, awaitMode, hnlt]
    · simp [waitDuration, awaitMode, hnlt]

/-- Witness for C9 at timeouts -7 (negative) and 7 (nonnegative) with a
drain time of 100 milliseconds. -/
theorem awaitTransmission_wait_semantics_witness :
    ((-7 : Int) < 0 ∧ awaitMode (-7) = WaitMode.indefinite ∧ waitDuration 100 (-7) = 100) ∧
    ((0 : Int) ≤ 7 ∧ waitDuration 100 7 = min 100 ((7 : Int).toNat) ∧
      waitDuration 100 7 ≤ 100 ∧ waitDuration 100 7 ≤ (7 : Int).toNat) :=
  ⟨⟨by decide, (awaitTransmission_wait_semantics connectedSession (-7) 100).2.1 (by decide)⟩,
   ⟨by decide, (awaitTransmission_wait_semantics connectedSession 7 100).2.2.1 (by decide)⟩⟩

/-- C10: the erase settling delay is the fixed compile-time constant
EraseTimeMs = 6000 milliseconds, one full second longer than the roughly
five seconds the header documentation deems sufficient. -/
theorem eraseTimeMs_fixed_constant :
    EraseTimeMs = 6000 ∧ EraseTimeMs = documentedSufficientEraseMs + 1000 := by
  decide

end EzGraver
